import Mathlib

/-!
Verification of the DAMOCLES settlement service against its specification.

The repository fragment under `src/services/settlement-service` contains the
data model (`models/settlement.rs`) and the service bootstrap (`main.rs`).
The engine itself (leverage scorer, proposal generator, settlement state
machine, negotiation orchestrator, blockchain settlement executor) is
declared and routed in `main.rs` but its code is not part of the fragment;
those operations are modelled here from the specification, each marked
`Modelled from the spec:` in its doc comment.

Modelling conventions: `Uuid` values and timestamps (`DateTime<Utc>`) are
modelled as `Nat`; `BigDecimal` (exact arbitrary-precision decimal) is
modelled as `ℚ`, which embeds all decimals exactly; `f64` scores are modelled
as `ℚ` since the spec requires exact monotone arithmetic.
-/

/-- The settlement lifecycle status enum, from
`src/services/settlement-service/src/models/settlement.rs` lines 23-32. -/
inductive SettlementStatus where
  | Proposed
  | Negotiating
  | Accepted
  | Rejected
  | Completed
  | Failed
deriving DecidableEq

/-- The central `Settlement` entity, from
`src/services/settlement-service/src/models/settlement.rs` lines 7-21.
Field names follow the Rust struct. -/
structure Settlement where
  id : Nat
  user_id : Nat
  debt_id : Nat
  original_amount : ℚ
  settled_amount : ℚ
  saved_amount : ℚ
  platform_fee : ℚ
  status : SettlementStatus
  smart_contract_address : Option String
  transaction_hash : Option String
  proposed_at : Nat
  completed_at : Option Nat
deriving DecidableEq

/-- `LeverageAnalysis`, from
`src/services/settlement-service/src/models/settlement.rs` lines 56-63. -/
structure LeverageAnalysis where
  violation_count : Int
  total_leverage_score : ℚ
  estimated_reduction_percentage : ℚ
  legal_strength : String
  key_violations : List String
deriving DecidableEq

/-- `OptimalSettlement`, from
`src/services/settlement-service/src/models/settlement.rs` lines 65-71. -/
structure OptimalSettlement where
  amount : ℚ
  reduction_percentage : ℚ
  confidence : ℚ
  reasoning : List String
deriving DecidableEq

/-- Error taxonomy of the engine. Modelled from the spec: §7 names the typed
failures `ValidationError`, `InvalidTransition`, `CollaboratorTimeout`,
`ExecutionReverted` and `ConcurrencyConflict`; none of this code is in the
fragment. -/
inductive SettlementError where
  | ValidationError
  | InvalidTransition
  | CollaboratorTimeout
  | ExecutionReverted
  | ConcurrencyConflict
deriving DecidableEq

/-- Terminal statuses per spec §4.3: `Completed`, `Rejected`, `Failed`. -/
def SettlementStatus.isTerminal : SettlementStatus → Bool
  | .Completed => true
  | .Rejected => true
  | .Failed => true
  | _ => false

/-- Events driving the settlement state machine. Modelled from the spec:
the transition table of §4.3 (counter-offer, accept, reject, execution
confirmation, execution failure, generation failure) together with the
executor's hash-persistence step of §4.5(2), which writes the transaction
hash while the settlement is still `Accepted`. The state-machine code is not
in the fragment. -/
inductive Event where
  | counterOffer
  | accept
  | reject
  | recordTxHash (h : String)
  | confirmExecution (addr : String) (t : Nat)
  | failExecution
  | generationFailure
deriving DecidableEq

/-- Modelled from the spec: the Settlement State Machine's guarded transition
function (§4.3). Each transition is guarded by the current status value;
`confirmExecution` additionally requires a recorded transaction hash (guard
column of the `Accepted → Completed` row). Any attempt from a terminal state
or with a failing guard is rejected with `InvalidTransition`. The
state-machine code is not in the fragment. -/
def applyTransition (s : Settlement) (e : Event) : Except SettlementError Settlement :=
  match e, s.status with
  | .counterOffer, .Proposed => .ok { s with status := .Negotiating }
  | .accept, .Proposed => .ok { s with status := .Accepted }
  | .accept, .Negotiating => .ok { s with status := .Accepted }
  | .reject, .Proposed => .ok { s with status := .Rejected }
  | .reject, .Negotiating => .ok { s with status := .Rejected }
  | .recordTxHash h, .Accepted => .ok { s with transaction_hash := some h }
  | .confirmExecution addr t, .Accepted =>
      match s.transaction_hash with
      | some _ => .ok { s with status := .Completed,
                               smart_contract_address := some addr,
                               completed_at := some t }
      | none => .error .InvalidTransition
  | .failExecution, .Accepted => .ok { s with status := .Failed }
  | .generationFailure, .Proposed => .ok { s with status := .Failed }
  | _, _ => .error .InvalidTransition

/-- Modelled from the spec: the persisted outcome of attempting a transition.
On success the new row is persisted; on failure the error is surfaced and the
persisted state is unchanged (§4.3, §7). -/
def stepTrans (s : Settlement) (e : Event) : Settlement × Option SettlementError :=
  match applyTransition s e with
  | .ok s1 => (s1, none)
  | .error err => (s, some err)

/-- Modelled from the spec: a trace of the state machine, applying a list of
attempted events in order; failed attempts leave the state unchanged. -/
def runEvents (s : Settlement) (es : List Event) : Settlement :=
  es.foldl (fun a e => (stepTrans a e).1) s

/-- Modelled from the spec: `acceptSettlement` drives the accept transition of
the state machine (§4.4, §6); it is a single atomic compare-and-set guarded
by the current status (§5). -/
def acceptSettlement (s : Settlement) : Except SettlementError Settlement :=
  applyTransition s .accept

/-- Modelled from the spec: a serialization of N concurrent `acceptSettlement`
calls on the same settlement. §5 requires each call to be one atomic
read-modify-write against the persistence layer, so every concurrent
execution of N identical accept calls is equivalent to running them in some
sequence; all sequences of the same atomic operation coincide, so one
sequential chain represents every interleaving. Returns each call's outcome
in serialization order. -/
def runAccepts : Nat → Settlement → List (Except SettlementError Settlement)
  | 0, _ => []
  | n + 1, s =>
      match acceptSettlement s with
      | .ok s1 => .ok s1 :: runAccepts n s1
      | .error e => .error e :: runAccepts n s

/-- Number of successful (`Accepted`) outcomes in a list of accept results. -/
def countOk (rs : List (Except SettlementError Settlement)) : Nat :=
  rs.countP (fun r => match r with | .ok _ => true | .error _ => false)

/-- Number of `InvalidTransition` outcomes in a list of accept results. -/
def countInvalid (rs : List (Except SettlementError Settlement)) : Nat :=
  rs.countP (fun r => match r with
    | .error .InvalidTransition => true
    | _ => false)

/-- Severity classes of a violation record. Modelled from the spec: §3 gives
Violation a severity class; §8 uses classes such as `high`. The violation
model file is referenced by `models/mod.rs` but absent from the fragment. -/
inductive Severity where
  | low
  | medium
  | high
  | critical
deriving DecidableEq

/-- Numeric rank of a severity class, giving the order used by the weighted
sum: low < medium < high < critical. -/
def Severity.rank : Severity → Nat
  | .low => 0
  | .medium => 1
  | .high => 2
  | .critical => 3

/-- An immutable violation record. Modelled from the spec: §3 (severity
class, statute reference, occurrence timestamp); the file is absent from the
fragment. -/
structure Violation where
  severity : Severity
  statute : String
  occurred_at : Nat
deriving DecidableEq

/-- Modelled from the spec: the Leverage Scorer's aggregate score (§4.1), a
weighted sum over violation severity classes; the weight table `w` is an
external configuration input, not hardcoded. The scorer code is not in the
fragment. -/
def leverageScore (w : Severity → ℚ) (vs : List Violation) : ℚ :=
  (vs.map (fun v => w v.severity)).sum

/-- Modelled from the spec: the Proposal Generator's clamp (§4.2). The
settled amount is clamped into the closed interval
`[principal * min_reduction_floor, principal]` so a malformed or adversarial
AI response cannot propose a non-positive or over-principal settlement. -/
def clampSettlementAmount (principal floorRate aiAmount : ℚ) : ℚ :=
  max (principal * floorRate) (min principal aiAmount)

/-- Policy configuration of the engine. Modelled from the spec: §4.2 names a
policy-configured `min_reduction_floor`, §3 a policy-defined fee as a
deterministic function of the saved amount, and §4.2 requires the fallback
confidence to sit below any AI-informed confidence; all are injected
configuration (§9), absent from the fragment. -/
structure EngineConfig where
  min_reduction_floor : ℚ
  fee_rate : ℚ
  fallback_confidence : ℚ
  ai_min_confidence : ℚ

/-- The response of the external AI Recommendation Service. Modelled from the
spec: §6, `recommend(debt, leverageAnalysis) → (amount, reasoning, confidence)`. -/
structure AiRecommendation where
  amount : ℚ
  reasoning : List String
  confidence : ℚ
deriving DecidableEq

/-- The ordered legal-strength tiers of §3: weak < moderate < strong <
very_strong. The Rust model stores the tier as a `String`; this enum models
its four documented values. -/
inductive LegalStrength where
  | weak
  | moderate
  | strong
  | very_strong
deriving DecidableEq

/-- Position of a tier in the documented order. -/
def LegalStrength.tierIndex : LegalStrength → Nat
  | .weak => 0
  | .moderate => 1
  | .strong => 2
  | .very_strong => 3

/-- Modelled from the spec: the deterministic fallback reduction percentage,
driven solely by the leverage tier and scaling linearly with it (§4.2,
illustrative linear rule). -/
def fallbackReductionPct (tier : LegalStrength) : ℚ :=
  (tier.tierIndex + 1) / 8

/-- Modelled from the spec: the Proposal Generator (§4.2). With an AI
response it clamps the suggested amount and carries the AI confidence,
floored at the configured minimum AI-informed confidence and capped at 1;
when the AI collaborator fails or times out (`none`) it falls back to the
deterministic formula driven solely by the leverage tier and marks the
configured, lower, fallback confidence. The generator code is not in the
fragment. -/
def generateProposal (cfg : EngineConfig) (ai : Option AiRecommendation)
    (tier : LegalStrength) (principal : ℚ) : OptimalSettlement :=
  match ai with
  | some r =>
      let amt := clampSettlementAmount principal cfg.min_reduction_floor r.amount
      { amount := amt
        reduction_percentage := (principal - amt) / principal
        confidence := max cfg.ai_min_confidence (min 1 r.confidence)
        reasoning := r.reasoning }
  | none =>
      let amt := clampSettlementAmount principal cfg.min_reduction_floor
        (principal * (1 - fallbackReductionPct tier))
      { amount := amt
        reduction_percentage := (principal - amt) / principal
        confidence := cfg.fallback_confidence
        reasoning := ["deterministic fallback driven by leverage score"] }

/-- Modelled from the spec: persisting a successful Proposal Generator result
as a `Proposed` settlement (§3 invariants, §4.3 initial state, §4.4). The
settled amount is the clamped proposal amount, the saved amount is
`original - settled`, and the platform fee is the policy function of the
saved amount, computed once at proposal time. -/
def mkProposedSettlement (cfg : EngineConfig) (sid uid did : Nat)
    (principal proposedAmount : ℚ) (t : Nat) : Settlement :=
  let settled := clampSettlementAmount principal cfg.min_reduction_floor proposedAmount
  { id := sid
    user_id := uid
    debt_id := did
    original_amount := principal
    settled_amount := settled
    saved_amount := principal - settled
    platform_fee := cfg.fee_rate * (principal - settled)
    status := .Proposed
    smart_contract_address := none
    transaction_hash := none
    proposed_at := t
    completed_at := none }

/-- Modelled from the spec: the orchestrator's propose workflow (§4.4, §8):
invoke the Proposal Generator (with or without an AI response) and persist
the result as a `Proposed` settlement. The proposal path always ends in
status `Proposed`, never `Failed`. -/
def proposeWorkflow (cfg : EngineConfig) (ai : Option AiRecommendation)
    (tier : LegalStrength) (sid uid did : Nat) (principal : ℚ) (t : Nat) : Settlement :=
  mkProposedSettlement cfg sid uid did principal
    (generateProposal cfg ai tier principal).amount t

/-- Confirmation status of a submitted transaction, from the Blockchain
Network Client interface of §6: `pending | confirmed | failed`. -/
inductive ConfStatus where
  | pending
  | confirmed
  | failed
deriving DecidableEq

/-- Modelled from the spec: the Blockchain Network Client (§6). `nextNonce`
numbers fresh submissions, so two distinct submissions always return two
distinct transaction handles; `confirmationStatus` reports each handle's
confirmation state. -/
structure Chain where
  nextNonce : Nat
  confirmationStatus : String → ConfStatus

/-- The transaction handle returned for the n-th submission. -/
def mkTxHash (n : Nat) : String :=
  "tx" ++ toString n

/-- State visible to the Blockchain Settlement Executor: the persisted
settlement, the chain collaborator, and the audit list of every transaction
submitted so far (in submission order). -/
structure ExecEnv where
  settlement : Settlement
  chain : Chain
  submitted : List String

/-- The result of an `execute` call (§4.5): completion, a still-pending
transaction, a confirmed failure, or a typed error. -/
inductive ExecResult where
  | completedResult (s : Settlement)
  | pendingResult (s : Settlement)
  | failedResult (s : Settlement)
  | execError (e : SettlementError)

/-- Modelled from the spec: the executor's confirmation polling (§4.5 steps
3-4). A pending handle leaves the state untouched; confirmation drives the
state machine to `Completed` (recording contract address and completion
time); a confirmed failure drives it to `Failed` with the transaction hash
retained for audit (§7). No transaction is ever submitted here. -/
def pollConfirmation (addr : String) (t : Nat) (st : ExecEnv) (h : String) :
    ExecEnv × ExecResult :=
  match st.chain.confirmationStatus h with
  | .pending => (st, .pendingResult st.settlement)
  | .confirmed =>
      match applyTransition st.settlement (.confirmExecution addr t) with
      | .ok s1 => ({ st with settlement := s1 }, .completedResult s1)
      | .error e => (st, .execError e)
  | .failed =>
      match applyTransition st.settlement .failExecution with
      | .ok s1 => ({ st with settlement := s1 }, .failedResult s1)
      | .error e => (st, .execError e)

/-- Modelled from the spec: the Blockchain Settlement Executor's
`execute(settlementId)` (§4.5). A `Completed` settlement returns its existing
result with no submission; an `Accepted` settlement already carrying a
transaction hash resumes polling with no second submission; an `Accepted`
settlement without a hash submits one transaction, persists the returned
hash against the settlement while still `Accepted`, then polls; any other
status violates the precondition and is rejected. The executor code is not
in the fragment. -/
def execute (addr : String) (t : Nat) (st : ExecEnv) : ExecEnv × ExecResult :=
  match st.settlement.status with
  | .Completed => (st, .completedResult st.settlement)
  | .Accepted =>
      match st.settlement.transaction_hash with
      | some h => pollConfirmation addr t st h
      | none =>
          let h := mkTxHash st.chain.nextNonce
          let st1 : ExecEnv :=
            { settlement := { st.settlement with transaction_hash := some h }
              chain := { st.chain with nextNonce := st.chain.nextNonce + 1 }
              submitted := st.submitted ++ [h] }
          pollConfirmation addr t st1 h
  | _ => (st, .execError .InvalidTransition)

/-- Serialized values of the serde data model, as produced by the derived
`Serialize` impl of `Settlement`: null (an absent `Option`), strings
(`Option<String>` contents and status variant names), identifiers and
timestamps (`Uuid` / `DateTime<Utc>`, modelled as `Nat`), exact decimals
(`BigDecimal`, modelled as `ℚ`), and field maps. -/
inductive Value where
  | vnull
  | vstr (s : String)
  | vnat (n : Nat)
  | vdec (q : ℚ)
  | vobj (fields : List (String × Value))

/-- Serialization of `SettlementStatus`: serde's derived impl writes a unit
variant as its variant name (the `sqlx` snake_case rename applies only to
the database type, not to serde). -/
def SettlementStatus.toValue : SettlementStatus → Value
  | .Proposed => .vstr "Proposed"
  | .Negotiating => .vstr "Negotiating"
  | .Accepted => .vstr "Accepted"
  | .Rejected => .vstr "Rejected"
  | .Completed => .vstr "Completed"
  | .Failed => .vstr "Failed"

/-- Deserialization of `SettlementStatus` from a variant-name string. -/
def SettlementStatus.fromValue : Value → Option SettlementStatus
  | .vstr "Proposed" => some .Proposed
  | .vstr "Negotiating" => some .Negotiating
  | .vstr "Accepted" => some .Accepted
  | .vstr "Rejected" => some .Rejected
  | .vstr "Completed" => some .Completed
  | .vstr "Failed" => some .Failed
  | _ => none

/-- Serialization of an optional string: serde writes `None` as null and
`Some` as the bare value. -/
def encodeOptStr : Option String → Value
  | none => .vnull
  | some s => .vstr s

/-- Deserialization of an optional string. -/
def decodeOptStr : Value → Option (Option String)
  | .vnull => some none
  | .vstr s => some (some s)
  | _ => none

/-- Serialization of an optional timestamp. -/
def encodeOptNat : Option Nat → Value
  | none => .vnull
  | some n => .vnat n

/-- Deserialization of an optional timestamp. -/
def decodeOptNat : Value → Option (Option Nat)
  | .vnull => some none
  | .vnat n => some (some n)
  | _ => none

/-- Deserialization of an identifier or timestamp. -/
def decodeNat : Value → Option Nat
  | .vnat n => some n
  | _ => none

/-- Deserialization of an exact decimal amount. -/
def decodeDec : Value → Option ℚ
  | .vdec q => some q
  | _ => none

/-- Serialization of a `Settlement`, mirroring serde's derived `Serialize`
for the struct of `models/settlement.rs` lines 7-21: a map from field names
to field values, in declaration order. -/
def Settlement.toValue (s : Settlement) : Value :=
  .vobj
    [("id", .vnat s.id),
     ("user_id", .vnat s.user_id),
     ("debt_id", .vnat s.debt_id),
     ("original_amount", .vdec s.original_amount),
     ("settled_amount", .vdec s.settled_amount),
     ("saved_amount", .vdec s.saved_amount),
     ("platform_fee", .vdec s.platform_fee),
     ("status", s.status.toValue),
     ("smart_contract_address", encodeOptStr s.smart_contract_address),
     ("transaction_hash", encodeOptStr s.transaction_hash),
     ("proposed_at", .vnat s.proposed_at),
     ("completed_at", encodeOptNat s.completed_at)]

/-- Deserialization of a `Settlement`, mirroring serde's derived
`Deserialize`: every field is required (none is marked optional or given a
default), optional fields accept null. -/
def Settlement.fromValue : Value → Option Settlement
  | .vobj
      [("id", vi), ("user_id", vu), ("debt_id", vd),
       ("original_amount", voa), ("settled_amount", vsa),
       ("saved_amount", vsv), ("platform_fee", vpf),
       ("status", vst), ("smart_contract_address", vca),
       ("transaction_hash", vth), ("proposed_at", vpa),
       ("completed_at", vct)] => do
      let id ← decodeNat vi
      let user_id ← decodeNat vu
      let debt_id ← decodeNat vd
      let original_amount ← decodeDec voa
      let settled_amount ← decodeDec vsa
      let saved_amount ← decodeDec vsv
      let platform_fee ← decodeDec vpf
      let status ← SettlementStatus.fromValue vst
      let smart_contract_address ← decodeOptStr vca
      let transaction_hash ← decodeOptStr vth
      let proposed_at ← decodeNat vpa
      let completed_at ← decodeOptNat vct
      some { id, user_id, debt_id, original_amount, settled_amount,
             saved_amount, platform_fee, status, smart_contract_address,
             transaction_hash, proposed_at, completed_at }
  | _ => none

/-- The amount invariant of §3: the settled and saved amounts partition the
original amount and are non-negative. -/
def amountsInvariant (s : Settlement) : Prop :=
  s.settled_amount + s.saved_amount = s.original_amount ∧
  s.settled_amount ≤ s.original_amount ∧
  0 ≤ s.settled_amount ∧ 0 ≤ s.saved_amount

/-- A concrete proposed settlement used as the base state of counterexample
traces: freshly proposed, no contract address, no transaction hash. -/
def exSettlement : Settlement :=
  { id := 1
    user_id := 2
    debt_id := 3
    original_amount := 10000
    settled_amount := 6000
    saved_amount := 4000
    platform_fee := 200
    status := .Proposed
    smart_contract_address := none
    transaction_hash := none
    proposed_at := 0
    completed_at := none }

/-- A concrete engine configuration: 60% clamp floor (a minimum 40%
reduction), 5% platform fee on savings, fallback confidence 0.4, AI-informed
confidence floored at 0.5. -/
def exConfig : EngineConfig :=
  { min_reduction_floor := 3 / 5
    fee_rate := 1 / 20
    fallback_confidence := 2 / 5
    ai_min_confidence := 1 / 2 }

/-- A concrete chain collaborator whose confirmations are all pending. -/
def exChain : Chain :=
  { nextNonce := 1
    confirmationStatus := fun _ => .pending }

/-- A concrete executor state: an accepted settlement already carrying the
transaction hash of its one submitted transaction. -/
def exExecEnv : ExecEnv :=
  { settlement := { exSettlement with status := .Accepted, transaction_hash := some "tx0" }
    chain := exChain
    submitted := ["tx0"] }

/-- The final state of a concrete trace that accepts a settlement, records a
transaction hash during execution, and then suffers a confirmed execution
failure. -/
def cexTrace : Settlement :=
  runEvents exSettlement [.accept, .recordTxHash "tx1", .failExecution]

/-- The execution-state invariant relating the optional on-chain fields to
the lifecycle status: a contract address only in `Completed`, a transaction
hash only while `Accepted` (transiently during execution), in `Completed`,
or in `Failed` (retained for audit per §7). -/
def hashStatusInv (s : Settlement) : Prop :=
  (s.smart_contract_address.isSome = true → s.status = .Completed) ∧
  (s.transaction_hash.isSome = true →
    s.status = .Accepted ∨ s.status = .Completed ∨ s.status = .Failed)

theorem applyTransition_error_invalid (s : Settlement) (e : Event)
    (err : SettlementError) (h : applyTransition s e = .error err) :
    err = .InvalidTransition := by
  cases e <;> cases hst : s.status <;> simp_all [applyTransition]
  cases hth : s.transaction_hash <;> simp_all

/-- C3: every transition attempted from a terminal status, or whose guard
fails, is rejected with `InvalidTransition` and leaves the persisted state
unchanged: `stepTrans` returns the original settlement together with the
error, and `InvalidTransition` is the only error the state machine ever
reports. -/
theorem invalid_transition_leaves_state_unchanged :
    (∀ (s : Settlement) (e : Event), s.status.isTerminal = true →
       stepTrans s e = (s, some .InvalidTransition)) ∧
    (∀ (s : Settlement) (e : Event) (err : SettlementError),
       applyTransition s e = .error err →
       stepTrans s e = (s, some .InvalidTransition)) := by
  have herr : ∀ (s : Settlement) (e : Event) (err : SettlementError),
      applyTransition s e = .error err →
      stepTrans s e = (s, some .InvalidTransition) := by
    intro s e err h
    have := applyTransition_error_invalid s e err h
    subst this
    simp [stepTrans, h]
  refine ⟨?_, herr⟩
  intro s e h
  have hterm : applyTransition s e = .error .InvalidTransition := by
    cases e <;> cases hst : s.status <;>
      simp_all [applyTransition, SettlementStatus.isTerminal]
  exact herr s e _ hterm

/-- Witness for C3: an accept attempted on a completed settlement is
rejected with `InvalidTransition` and the state is unchanged. -/
theorem invalid_transition_leaves_state_unchanged_witness :
    stepTrans { exSettlement with status := .Completed } .accept =
      ({ exSettlement with status := .Completed }, some .InvalidTransition) :=
  invalid_transition_leaves_state_unchanged.1
    { exSettlement with status := .Completed } .accept rfl

theorem acceptSettlement_of_accepted (s : Settlement)
    (h : s.status = .Accepted) :
    acceptSettlement s = .error .InvalidTransition := by
  simp [acceptSettlement, applyTransition, h]

theorem acceptSettlement_of_proposed (s : Settlement)
    (h : s.status = .Proposed) :
    acceptSettlement s = .ok { s with status := .Accepted } := by
  simp [acceptSettlement, applyTransition, h]

theorem runAccepts_of_accepted (n : Nat) (s : Settlement)
    (h : s.status = .Accepted) :
    runAccepts n s =
      List.replicate n (Except.error SettlementError.InvalidTransition) := by
  induction n with
  | zero => simp [runAccepts]
  | succ n ih =>
      simp [runAccepts, acceptSettlement_of_accepted s h, ih, List.replicate]

theorem countOk_cons_ok (s1 : Settlement)
    (rs : List (Except SettlementError Settlement)) :
    countOk (.ok s1 :: rs) = countOk rs + 1 := by
  simp [countOk, List.countP_cons]

theorem countOk_cons_error (e : SettlementError)
    (rs : List (Except SettlementError Settlement)) :
    countOk (.error e :: rs) = countOk rs := by
  simp [countOk, List.countP_cons]

theorem countInvalid_cons_ok (s1 : Settlement)
    (rs : List (Except SettlementError Settlement)) :
    countInvalid (.ok s1 :: rs) = countInvalid rs := by
  simp [countInvalid, List.countP_cons]

theorem countInvalid_cons_invalid
    (rs : List (Except SettlementError Settlement)) :
    countInvalid (.error .InvalidTransition :: rs) = countInvalid rs + 1 := by
  simp [countInvalid, List.countP_cons]

theorem countOk_replicate_error (m : Nat) (e : SettlementError) :
    countOk (List.replicate m (Except.error e)) = 0 := by
  induction m with
  | zero => rfl
  | succ m ih => rw [List.replicate_succ, countOk_cons_error, ih]

theorem countInvalid_replicate (m : Nat) :
    countInvalid
      (List.replicate m
        (Except.error (ε := SettlementError) (α := Settlement)
          SettlementError.InvalidTransition)) = m := by
  induction m with
  | zero => rfl
  | succ m ih => rw [List.replicate_succ, countInvalid_cons_invalid, ih]

/-- C2: N ≥ 1 serialized executions of `acceptSettlement` on the same
proposed settlement (each call a single atomic compare-and-set, so any
concurrent interleaving is equivalent to this serialization) yield exactly
one successful `Accepted` outcome and N − 1 `InvalidTransition` outcomes:
double-acceptance is impossible. -/
theorem accept_race_single_winner (s : Settlement) (n : Nat)
    (hs : s.status = .Proposed) (hn : 1 ≤ n) :
    countOk (runAccepts n s) = 1 ∧ countInvalid (runAccepts n s) = n - 1 := by
  obtain ⟨m, rfl⟩ : ∃ m, n = m + 1 := ⟨n - 1, (Nat.succ_pred_eq_of_pos hn).symm⟩
  have h1 := acceptSettlement_of_proposed s hs
  have h2 : runAccepts m { s with status := SettlementStatus.Accepted } =
      List.replicate m (Except.error SettlementError.InvalidTransition) :=
    runAccepts_of_accepted m _ rfl
  have h3 : runAccepts (m + 1) s =
      Except.ok { s with status := SettlementStatus.Accepted } ::
        List.replicate m (Except.error SettlementError.InvalidTransition) := by
    simp [runAccepts, h1, h2]
  constructor
  · rw [h3, countOk_cons_ok, countOk_replicate_error]
  · rw [h3, countInvalid_cons_ok, countInvalid_replicate]
    omega

/-- Witness for C2: three serialized accept calls on a concrete proposed
settlement produce one success and two `InvalidTransition` failures. -/
theorem accept_race_single_winner_witness :
    countOk (runAccepts 3 exSettlement) = 1 ∧
    countInvalid (runAccepts 3 exSettlement) = 3 - 1 :=
  accept_race_single_winner exSettlement 3 rfl (by decide)

theorem stepTrans_preserves_amounts (s : Settlement) (e : Event) :
    (stepTrans s e).1.settled_amount = s.settled_amount ∧
    (stepTrans s e).1.saved_amount = s.saved_amount ∧
    (stepTrans s e).1.original_amount = s.original_amount := by
  cases e <;> cases hst : s.status <;>
    simp_all [stepTrans, applyTransition]
  cases hth : s.transaction_hash <;> simp_all

/-- C4: `settled_amount + saved_amount = original_amount`,
`settled_amount ≤ original_amount`, and non-negativity of both hold for
every settlement created at proposal time (for any policy floor in [0,1]
and non-negative principal), and are preserved by every state-machine
operation: the invariant holds at every observed state. -/
theorem amounts_invariant_holds (cfg : EngineConfig) (sid uid did : Nat)
    (principal proposedAmount : ℚ) (t : Nat)
    (h0 : 0 ≤ cfg.min_reduction_floor) (h1 : cfg.min_reduction_floor ≤ 1)
    (hp : 0 ≤ principal) :
    amountsInvariant (mkProposedSettlement cfg sid uid did principal proposedAmount t) ∧
    (∀ (s : Settlement) (e : Event), amountsInvariant s →
       amountsInvariant (stepTrans s e).1) := by
  constructor
  · have hfl : 0 ≤ principal * cfg.min_reduction_floor := mul_nonneg hp h0
    have hle : clampSettlementAmount principal cfg.min_reduction_floor proposedAmount ≤
        principal := by
      apply max_le
      · calc principal * cfg.min_reduction_floor ≤ principal * 1 :=
              mul_le_mul_of_nonneg_left h1 hp
          _ = principal := mul_one principal
      · exact min_le_left _ _
    have hge : 0 ≤ clampSettlementAmount principal cfg.min_reduction_floor proposedAmount :=
      le_trans hfl (le_max_left _ _)
    refine ⟨by simp [mkProposedSettlement], ?_, ?_, ?_⟩ <;>
      simp only [mkProposedSettlement]
    · exact hle
    · exact hge
    · linarith
  · intro s e hs
    obtain ⟨ha, hb, hc⟩ := stepTrans_preserves_amounts s e
    unfold amountsInvariant at hs ⊢
    rw [ha, hb, hc]
    exact hs

/-- Witness for C4: the invariant holds for a concrete proposal (principal
10000, AI amount 5500 clamped to 6000 under the 60% floor) and is preserved
by a concrete accept transition on it. -/
theorem amounts_invariant_holds_witness :
    amountsInvariant (mkProposedSettlement exConfig 1 2 3 10000 5500 0) ∧
    (∀ (s : Settlement) (e : Event), amountsInvariant s →
       amountsInvariant (stepTrans s e).1) :=
  amounts_invariant_holds exConfig 1 2 3 10000 5500 0
    (by norm_num [exConfig]) (by norm_num [exConfig]) (by norm_num)

theorem leverageScore_cons (w : Severity → ℚ) (v : Violation)
    (vs : List Violation) :
    leverageScore w (v :: vs) = w v.severity + leverageScore w vs := by
  simp [leverageScore]

/-- C5: the leverage score is monotone. First part: for any non-negative
weight table, a violation set extended by further violations never scores
lower (count monotonicity, which in particular covers extensions by
equal-or-more-severe violations). Second part: for any weight table monotone
in severity rank, raising severities pointwise never lowers the score. -/
theorem leverage_score_monotone :
    (∀ (w : Severity → ℚ) (v1 v2 : List Violation),
       (∀ sev, 0 ≤ w sev) → List.Sublist v1 v2 →
       leverageScore w v1 ≤ leverageScore w v2) ∧
    (∀ (w : Severity → ℚ) (v1 v2 : List Violation),
       (∀ a b : Severity, a.rank ≤ b.rank → w a ≤ w b) →
       List.Forall₂ (fun u v => u.severity.rank ≤ v.severity.rank) v1 v2 →
       leverageScore w v1 ≤ leverageScore w v2) := by
  constructor
  · intro w v1 v2 hw h
    induction h with
    | slnil => exact le_refl _
    | cons a _ ih =>
        rw [leverageScore_cons]
        have := hw a.severity
        linarith
    | cons₂ a _ ih =>
        rw [leverageScore_cons, leverageScore_cons]
        linarith
  · intro w v1 v2 hw h
    induction h with
    | nil => exact le_refl _
    | cons huv _ ih =>
        rw [leverageScore_cons, leverageScore_cons]
        have := hw _ _ huv
        linarith

/-- Witness for C5: with the rank weight table, adding a high-severity
violation to the empty set does not lower the score, and raising a medium
violation to critical does not lower it either. -/
theorem leverage_score_monotone_witness :
    leverageScore (fun sev => (sev.rank : ℚ)) [] ≤
      leverageScore (fun sev => (sev.rank : ℚ)) [⟨.high, "inkassoloven", 0⟩] ∧
    leverageScore (fun sev => (sev.rank : ℚ)) [⟨.medium, "gdpr", 1⟩] ≤
      leverageScore (fun sev => (sev.rank : ℚ)) [⟨.critical, "gdpr", 1⟩] := by
  constructor
  · exact leverage_score_monotone.1 _ _ _
      (fun sev => by positivity) (List.nil_sublist _)
  · exact leverage_score_monotone.2 _ _ _
      (fun a b hab => by exact_mod_cast hab)
      (List.forall₂_cons.mpr ⟨by decide, List.Forall₂.nil⟩)

/-- C6: the Proposal Generator's settled amount always lies in the closed
interval `[principal * min_reduction_floor, principal]` (for any
non-negative principal and floor rate in [0,1]); in particular, with
principal 10000 and the 60% clamp floor of a 40% minimum reduction, an AI
recommendation of 5500 is clamped up to 6000. -/
theorem proposal_amount_clamped :
    (∀ (principal floorRate aiAmount : ℚ),
       0 ≤ principal → 0 ≤ floorRate → floorRate ≤ 1 →
       principal * floorRate ≤ clampSettlementAmount principal floorRate aiAmount ∧
       clampSettlementAmount principal floorRate aiAmount ≤ principal) ∧
    clampSettlementAmount 10000 (3 / 5) 5500 = 6000 := by
  constructor
  · intro p f a hp h0 h1
    refine ⟨le_max_left _ _, max_le ?_ (min_le_left _ _)⟩
    calc p * f ≤ p * 1 := mul_le_mul_of_nonneg_left h1 hp
      _ = p := mul_one p
  · norm_num [clampSettlementAmount]

/-- Witness for C6: the interval bounds instantiated at principal 10000,
floor 3/5 and AI amount 5500. -/
theorem proposal_amount_clamped_witness :
    10000 * (3 / 5 : ℚ) ≤ clampSettlementAmount 10000 (3 / 5) 5500 ∧
    clampSettlementAmount 10000 (3 / 5) 5500 ≤ 10000 :=
  proposal_amount_clamped.1 10000 (3 / 5) 5500
    (by norm_num) (by norm_num) (by norm_num)

/-- C7: when the AI collaborator fails or times out (`none`), the Proposal
Generator still produces a proposal via the deterministic fallback, whose
confidence is strictly lower than that of any AI-informed result (given the
configured fallback confidence sits below the AI confidence floor), and the
orchestrator persists the resulting settlement in status `Proposed`, never
`Failed`. -/
theorem fallback_always_proposes (cfg : EngineConfig) (tier : LegalStrength)
    (principal : ℚ) (sid uid did t : Nat)
    (hc : cfg.fallback_confidence < cfg.ai_min_confidence) :
    (∀ r : AiRecommendation,
       (generateProposal cfg none tier principal).confidence <
         (generateProposal cfg (some r) tier principal).confidence) ∧
    (proposeWorkflow cfg none tier sid uid did principal t).status =
      SettlementStatus.Proposed ∧
    (proposeWorkflow cfg none tier sid uid did principal t).status ≠
      SettlementStatus.Failed := by
  refine ⟨?_, rfl, by simp [proposeWorkflow, mkProposedSettlement]⟩
  intro r
  have : cfg.ai_min_confidence ≤ max cfg.ai_min_confidence (min 1 r.confidence) :=
    le_max_left _ _
  simp only [generateProposal]
  linarith

/-- Witness for C7: a concrete AI timeout under the concrete configuration
still yields a `Proposed` settlement with strictly lower confidence than an
AI-informed run. -/
theorem fallback_always_proposes_witness :
    (∀ r : AiRecommendation,
       (generateProposal exConfig none .strong 10000).confidence <
         (generateProposal exConfig (some r) .strong 10000).confidence) ∧
    (proposeWorkflow exConfig none .strong 1 2 3 10000 0).status =
      SettlementStatus.Proposed ∧
    (proposeWorkflow exConfig none .strong 1 2 3 10000 0).status ≠
      SettlementStatus.Failed :=
  fallback_always_proposes exConfig .strong 10000 1 2 3 0
    (by norm_num [exConfig])

theorem applyTransition_confirm_ok (s : Settlement) (addr : String) (t : Nat)
    (s1 : Settlement)
    (h : applyTransition s (Event.confirmExecution addr t) = .ok s1) :
    s1.transaction_hash = s.transaction_hash ∧ s1.status = .Completed := by
  cases hst : s.status <;> simp [applyTransition, hst] at h
  cases hth : s.transaction_hash with
  | none => simp [hth] at h
  | some h2 =>
      simp [hth] at h
      subst h
      exact ⟨rfl, rfl⟩

theorem applyTransition_fail_ok (s : Settlement) (s1 : Settlement)
    (h : applyTransition s Event.failExecution = .ok s1) :
    s1.transaction_hash = s.transaction_hash ∧ s1.status = .Failed := by
  cases hst : s.status <;> simp [applyTransition, hst] at h
  subst h
  exact ⟨rfl, rfl⟩

theorem pollConfirmation_submitted (addr : String) (t : Nat) (st : ExecEnv)
    (h : String) :
    (pollConfirmation addr t st h).1.submitted = st.submitted := by
  cases hcs : st.chain.confirmationStatus h with
  | pending => simp [pollConfirmation, hcs]
  | confirmed =>
      cases hap : applyTransition st.settlement (.confirmExecution addr t) <;>
        simp [pollConfirmation, hcs, hap]
  | failed =>
      cases hap : applyTransition st.settlement .failExecution <;>
        simp [pollConfirmation, hcs, hap]

theorem pollConfirmation_hash (addr : String) (t : Nat) (st : ExecEnv)
    (h : String) :
    (pollConfirmation addr t st h).1.settlement.transaction_hash =
      st.settlement.transaction_hash := by
  cases hcs : st.chain.confirmationStatus h with
  | pending => simp [pollConfirmation, hcs]
  | confirmed =>
      cases hap : applyTransition st.settlement (.confirmExecution addr t) with
      | ok s1 =>
          simp [pollConfirmation, hcs, hap,
            (applyTransition_confirm_ok _ addr t s1 hap).1]
      | error e => simp [pollConfirmation, hcs, hap]
  | failed =>
      cases hap : applyTransition st.settlement .failExecution with
      | ok s1 =>
          simp [pollConfirmation, hcs, hap,
            (applyTransition_fail_ok _ s1 hap).1]
      | error e => simp [pollConfirmation, hcs, hap]

theorem execute_no_submit_of_hash (addr : String) (t : Nat) (st : ExecEnv)
    (hh : st.settlement.transaction_hash.isSome = true) :
    (execute addr t st).1.submitted = st.submitted := by
  cases hst : st.settlement.status
  case Accepted =>
    cases hth : st.settlement.transaction_hash with
    | none => simp [hth] at hh
    | some h2 => simp [execute, hst, hth, pollConfirmation_submitted]
  all_goals simp [execute, hst]

theorem execute_completed_id (addr : String) (t : Nat) (st : ExecEnv)
    (hst : st.settlement.status = .Completed) :
    execute addr t st = (st, .completedResult st.settlement) := by
  simp [execute, hst]

theorem execute_accepted_polls (addr : String) (t : Nat) (st : ExecEnv)
    (h : String) (hst : st.settlement.status = .Accepted)
    (hh : st.settlement.transaction_hash = some h) :
    execute addr t st = pollConfirmation addr t st h := by
  simp [execute, hst, hh]

/-- C1: execution is idempotent per settlement id. First part: an `execute`
call on a settlement already carrying a transaction hash and status
`Accepted` or `Completed` submits no transaction (the submission audit list
is unchanged), keeps the recorded hash, returns the existing result when
`Completed`, and resumes confirmation polling when `Accepted`. Second part:
for any starting state, two consecutive `execute` calls submit at most one
transaction in total, so they can never produce two distinct transaction
hashes. -/
theorem execute_idempotent :
    (∀ (addr : String) (t : Nat) (st : ExecEnv) (h : String),
       st.settlement.transaction_hash = some h →
       st.settlement.status = .Accepted ∨ st.settlement.status = .Completed →
       (execute addr t st).1.submitted = st.submitted ∧
       (execute addr t st).1.settlement.transaction_hash = some h ∧
       (st.settlement.status = .Completed →
         execute addr t st = (st, .completedResult st.settlement)) ∧
       (st.settlement.status = .Accepted →
         execute addr t st = pollConfirmation addr t st h)) ∧
    (∀ (addr addr2 : String) (t t2 : Nat) (st : ExecEnv),
       (execute addr2 t2 (execute addr t st).1).1.submitted.length ≤
         st.submitted.length + 1) := by
  constructor
  · intro addr t st h hh hst
    rcases hst with hst | hst
    · have hexec := execute_accepted_polls addr t st h hst hh
      refine ⟨?_, ?_, ?_, fun _ => hexec⟩
      · rw [hexec, pollConfirmation_submitted]
      · rw [hexec, pollConfirmation_hash, hh]
      · intro hcontra
        rw [hst] at hcontra
        simp at hcontra
    · have hexec := execute_completed_id addr t st hst
      refine ⟨?_, ?_, fun _ => hexec, ?_⟩
      · rw [hexec]
      · rw [hexec]
        exact hh
      · intro hcontra
        rw [hst] at hcontra
        simp at hcontra
  · intro addr addr2 t t2 st
    cases hst : st.settlement.status
    case Accepted =>
      cases hth : st.settlement.transaction_hash with
      | some h =>
          have h1 := execute_accepted_polls addr t st h hst hth
          have hsub1 : (execute addr t st).1.submitted = st.submitted := by
            rw [h1, pollConfirmation_submitted]
          have hhash1 :
              (execute addr t st).1.settlement.transaction_hash = some h := by
            rw [h1, pollConfirmation_hash, hth]
          have hsub2 := execute_no_submit_of_hash addr2 t2 (execute addr t st).1
            (by rw [hhash1]; rfl)
          rw [hsub2, hsub1]
          exact Nat.le_succ _
      | none =>
          have h1 : execute addr t st =
              pollConfirmation addr t
                ⟨{ st.settlement with
                     transaction_hash := some (mkTxHash st.chain.nextNonce) },
                  { st.chain with nextNonce := st.chain.nextNonce + 1 },
                  st.submitted ++ [mkTxHash st.chain.nextNonce]⟩
                (mkTxHash st.chain.nextNonce) := by
            simp [execute, hst, hth]
          have hsub1 : (execute addr t st).1.submitted =
              st.submitted ++ [mkTxHash st.chain.nextNonce] := by
            rw [h1, pollConfirmation_submitted]
          have hhash1 : (execute addr t st).1.settlement.transaction_hash =
              some (mkTxHash st.chain.nextNonce) := by
            rw [h1, pollConfirmation_hash]
          have hsub2 := execute_no_submit_of_hash addr2 t2 (execute addr t st).1
            (by rw [hhash1]; rfl)
          rw [hsub2, hsub1]
          simp
    case Completed =>
      have h1 := execute_completed_id addr t st hst
      have h2 := execute_completed_id addr2 t2 st hst
      rw [h1, h2]
      exact Nat.le_succ _
    all_goals {
      have h1 : execute addr t st = (st, .execError .InvalidTransition) := by
        simp [execute, hst]
      have h2 : execute addr2 t2 st = (st, .execError .InvalidTransition) := by
        simp [execute, hst]
      rw [h1, h2]
      exact Nat.le_succ _ }

/-- Witness for C1: on a concrete accepted settlement already carrying the
hash of its one submitted transaction, `execute` submits nothing, keeps the
hash and resumes polling. -/
theorem execute_idempotent_witness :
    (execute "addr1" 5 exExecEnv).1.submitted = exExecEnv.submitted ∧
    (execute "addr1" 5 exExecEnv).1.settlement.transaction_hash = some "tx0" ∧
    (exExecEnv.settlement.status = .Completed →
      execute "addr1" 5 exExecEnv = (exExecEnv, .completedResult exExecEnv.settlement)) ∧
    (exExecEnv.settlement.status = .Accepted →
      execute "addr1" 5 exExecEnv = pollConfirmation "addr1" 5 exExecEnv "tx0") :=
  execute_idempotent.1 "addr1" 5 exExecEnv "tx0" rfl (Or.inl rfl)

theorem runEvents_concat (s : Settlement) (es : List Event) (e : Event) :
    runEvents s (es ++ [e]) = (stepTrans (runEvents s es) e).1 := by
  simp [runEvents, List.foldl_append]

theorem stepTrans_completed_source (m : Settlement) (e : Event)
    (h : (stepTrans m e).1.status = .Completed) :
    m.status = .Completed ∨
    (m.status = .Accepted ∧ m.transaction_hash.isSome = true) := by
  cases e <;> cases hst : m.status <;>
    simp_all [stepTrans, applyTransition]
  cases hth : m.transaction_hash <;> simp_all

/-- C8: in every trace of the state machine starting from a freshly proposed
settlement (status `Proposed`, no transaction hash), reaching status
`Completed` requires an earlier point of the trace at which the settlement
was `Accepted` with a recorded transaction hash; the `Accepted → Completed`
transition itself is guarded on the hash being present. -/
theorem completed_requires_accepted_with_hash (s0 : Settlement)
    (es : List Event) (h0 : s0.status = .Proposed)
    (_hh : s0.transaction_hash = none)
    (hc : (runEvents s0 es).status = .Completed) :
    ∃ es1 es2 h, es = es1 ++ es2 ∧
      (runEvents s0 es1).status = .Accepted ∧
      (runEvents s0 es1).transaction_hash = some h := by
  induction es using List.reverseRecOn with
  | nil =>
      rw [show runEvents s0 [] = s0 from rfl, h0] at hc
      simp at hc
  | append_singleton es e ih =>
      rw [runEvents_concat] at hc
      rcases stepTrans_completed_source (runEvents s0 es) e hc with hdone | hstep
      · obtain ⟨es1, es2, h, heq, ha, hb⟩ := ih hdone
        exact ⟨es1, es2 ++ [e], h, by rw [heq, List.append_assoc], ha, hb⟩
      · obtain ⟨ha, hb⟩ := hstep
        obtain ⟨h, hsome⟩ := Option.isSome_iff_exists.mp hb
        exact ⟨es, [e], h, rfl, ha, hsome⟩

/-- Witness for C8: a concrete trace (accept, record hash, confirm) reaches
`Completed` and has the accept-with-hash point as its two-event head. -/
theorem completed_requires_accepted_with_hash_witness :
    ∃ es1 es2 h,
      [Event.accept, Event.recordTxHash "tx9",
        Event.confirmExecution "addr9" 7] = es1 ++ es2 ∧
      (runEvents exSettlement es1).status = .Accepted ∧
      (runEvents exSettlement es1).transaction_hash = some h :=
  completed_requires_accepted_with_hash exSettlement
    [Event.accept, Event.recordTxHash "tx9", Event.confirmExecution "addr9" 7]
    rfl rfl (by decide)

theorem stepTrans_preserves_hashStatusInv (s : Settlement) (e : Event)
    (h : hashStatusInv s) : hashStatusInv (stepTrans s e).1 := by
  obtain ⟨haddr, hhash⟩ := h
  cases e <;> cases hst : s.status <;>
    cases hth : s.transaction_hash <;>
    cases hca : s.smart_contract_address <;>
    simp_all [stepTrans, applyTransition, hashStatusInv]

/-- C9 (amended): starting from a freshly proposed settlement (no contract
address, no transaction hash), every reachable state satisfies: the smart
contract address is present only in status `Completed`, and the transaction
hash is present only in `Accepted` (transiently, while execution is in
flight), `Completed`, or `Failed` (where it is retained for audit after a
failed execution); in every other status both fields are absent. -/
theorem hash_only_in_execution_states (s0 : Settlement) (es : List Event)
    (_h1 : s0.status = .Proposed) (h2 : s0.transaction_hash = none)
    (h3 : s0.smart_contract_address = none) :
    ((runEvents s0 es).smart_contract_address.isSome = true →
      (runEvents s0 es).status = .Completed) ∧
    ((runEvents s0 es).transaction_hash.isSome = true →
      (runEvents s0 es).status = .Accepted ∨
      (runEvents s0 es).status = .Completed ∨
      (runEvents s0 es).status = .Failed) := by
  have base : hashStatusInv s0 := by
    constructor
    · intro hcontra
      rw [h3] at hcontra
      simp at hcontra
    · intro hcontra
      rw [h2] at hcontra
      simp at hcontra
  have main : ∀ (l : List Event) (s : Settlement), hashStatusInv s →
      hashStatusInv (runEvents s l) := by
    intro l
    induction l with
    | nil => intro s hs; exact hs
    | cons e l ih =>
        intro s hs
        rw [show runEvents s (e :: l) = runEvents (stepTrans s e).1 l from rfl]
        exact ih _ (stepTrans_preserves_hashStatusInv s e hs)
  exact main es s0 base

/-- Witness for C9 (amended): the invariant instantiated on the concrete
failed-execution trace, where the transaction hash is indeed retained in
status `Failed`. -/
theorem hash_only_in_execution_states_witness :
    ((runEvents exSettlement
        [Event.accept, Event.recordTxHash "tx1", Event.failExecution]
      ).smart_contract_address.isSome = true →
      (runEvents exSettlement
        [Event.accept, Event.recordTxHash "tx1", Event.failExecution]
      ).status = .Completed) ∧
    ((runEvents exSettlement
        [Event.accept, Event.recordTxHash "tx1", Event.failExecution]
      ).transaction_hash.isSome = true →
      (runEvents exSettlement
        [Event.accept, Event.recordTxHash "tx1", Event.failExecution]
      ).status = .Accepted ∨
      (runEvents exSettlement
        [Event.accept, Event.recordTxHash "tx1", Event.failExecution]
      ).status = .Completed ∨
      (runEvents exSettlement
        [Event.accept, Event.recordTxHash "tx1", Event.failExecution]
      ).status = .Failed) :=
  hash_only_in_execution_states exSettlement
    [Event.accept, Event.recordTxHash "tx1", Event.failExecution] rfl rfl rfl

/-- Counterexample to C9 as stated: after the reachable trace accept →
record hash → confirmed execution failure, the settlement holds a
transaction hash while its status is `Failed` — a state other than
`Completed` or the transient `Accepted`, where the claim requires the hash
to be absent. -/
theorem hash_outside_completed_counterexample :
    cexTrace.status = .Failed ∧
    cexTrace.transaction_hash = some "tx1" ∧
    ¬(cexTrace.transaction_hash.isSome = true →
        cexTrace.status = .Accepted ∨ cexTrace.status = .Completed) := by
  refine ⟨rfl, rfl, fun hcl => ?_⟩
  rcases hcl rfl with h | h <;> simp [cexTrace, runEvents, stepTrans,
    applyTransition, exSettlement] at h

theorem status_roundtrip (st : SettlementStatus) :
    SettlementStatus.fromValue st.toValue = some st := by
  cases st <;> rfl

theorem optStr_roundtrip (o : Option String) :
    decodeOptStr (encodeOptStr o) = some o := by
  cases o <;> rfl

theorem optNat_roundtrip (o : Option Nat) :
    decodeOptNat (encodeOptNat o) = some o := by
  cases o <;> rfl

/-- C10: the `Settlement` model type round-trips through its serialized
form: deserializing the serialization of any settlement value yields that
same value, in every status and with each optional field (contract address,
transaction hash, completion time) either absent or present. -/
theorem settlement_serde_roundtrip (s : Settlement) :
    Settlement.fromValue s.toValue = some s := by
  cases s with
  | mk id uid did oa sa sv pf st addr hash pa ca =>
      cases st <;> cases addr <;> cases hash <;> cases ca <;> rfl
